import Mathlib

/-!
Verification development for the autobkp incremental directory-backup engine.

The definitions below are a shallow embedding of the Python sources:
  src/autobkp/log.py      (is_verbose)
  src/autobkp/autobkp.py  (_get_timestamp_str_from_px6, _get_bkp_filename,
                           _get_dir_metadata, _save_bkp_file, get_filetree,
                           _backup_sub, backup)

Modelling conventions:
  - Python dicts holding a filetree become an inductive association list
    (FileTree) whose values are a record of optional fields (FileMeta), one
    field per manifest key; a missing key is the field being none.
  - Filesystem reads (os.stat, os.listdir) are served from an explicit
    model of the source tree (FSTree / FSRoot); os.path.exists and
    os.path.isdir on the destination are oracle functions passed in.
  - Filesystem writes become a trace of FsAction values; Python exceptions
    become an Except result carrying the trace accumulated so far.
  - Machine floats for timestamps: the code stores POSIX time in integer
    microseconds (mtime_px6); the model keeps that integer exactly and
    treats the float round trips of the source as exact (they are exact for
    the magnitudes the code handles).  The local timezone used by Python's
    datetime.fromtimestamp is modelled as UTC (offset zero).
-/

namespace Autobkp

/-! ## Verbosity (src/autobkp/log.py) -/

/-- Model of the Python VerboseType: bool, int, or a tuple whose first
element is again a verbose value (the remaining tuple elements are output
sinks and do not influence is_verbose). -/
inductive Verbose where
  | vbool : Bool → Verbose
  | vint  : Int → Verbose
  | vtup  : Verbose → Verbose
deriving DecidableEq, Repr

/-- Model of the verbose_req parameter: None, an int, or a level string. -/
inductive VerboseReq where
  | rnone : VerboseReq
  | rint  : Int → VerboseReq
  | rstr  : String → VerboseReq
deriving DecidableEq, Repr

/-- Numeric value of a verbose argument when Python's isinstance(v, int|float)
holds; Python bools are ints (True = 1, False = 0). -/
def Verbose.toNum : Verbose → Option Int
  | .vbool b => some (if b then 1 else 0)
  | .vint n  => some n
  | .vtup _  => none

/-- Python truthiness of a verbose value (a tuple is nonempty hence truthy). -/
def Verbose.truthy : Verbose → Bool
  | .vbool b => b
  | .vint n  => decide (n ≠ 0)
  | .vtup _  => true

/-- The _VERBOSEREQDICT_TO_INT table of log.py restricted to the normalized
level names used by the code; the value none models the dict value None for
the key None. -/
def verboseReqToInt (s : String) : Option (Option Int) :=
  if s = "None" then some none
  else if s = "fatal" ∨ s = "CRITICAL" then some (some 0)
  else if s = "err" ∨ s = "error" ∨ s = "Error" then some (some 1)
  else if s = "warn" ∨ s = "warning" ∨ s = "Warn" ∨ s = "Warning" then some (some 2)
  else if s = "note" ∨ s = "Note" then some (some 3)
  else if s = "info" ∨ s = "Info" then some (some 4)
  else if s = "debug" ∨ s = "debug_info" ∨ s = "Debug" then some (some 5)
  else none

/-- Helper for is_verbose with an integer requirement: a numeric verbose
(int or bool, since Python bools are ints) compares with >=, and a tuple
recurses on its first element. -/
def is_verbose_num : Verbose → Int → Bool
  | .vbool b, n => decide ((if b then (1 : Int) else 0) ≥ n)
  | .vint m, n  => decide (m ≥ n)
  | .vtup v0, n => is_verbose_num v0 n

/-- Embedding of log.is_verbose, following the Python branch order: a numeric
verbose against a numeric requirement compares with >=; a requirement of None
or a bool verbose returns the verbose's truth value; a tuple recurses on its
first element; a string requirement is translated through the level table and
retried.  An unknown level string raises ValueError in Python; no call site
of the code reaches that branch, and the model returns false there. -/
def is_verbose : Verbose → VerboseReq → Bool
  | v, .rint n => is_verbose_num v n
  | v, .rnone => v.truthy
  | .vbool b, .rstr _ => b
  | .vtup v0, .rstr s => is_verbose v0 (.rstr s)
  | .vint n, .rstr s =>
      match verboseReqToInt s with
      | some (some k) => is_verbose_num (.vint n) k
      | some none     => (Verbose.vint n).truthy
      | none          => false

/-! ## Timestamp rendering (autobkp._get_timestamp_str_from_px6)

The source renders datetime.fromtimestamp(px6 / 1e6) with the strftime
pattern of year, month, day, hour, minute, second, microsecond, each
zero-padded (4, 2, 2, 2, 2, 2, 6 digits).  The civil-date computation uses
the standard days-to-civil algorithm over the proleptic Gregorian calendar,
which is what Python's datetime implements for the supported year range. -/

/-- Decimal digit character for n mod 10. -/
def digitCharOf (n : Nat) : Char := Char.ofNat (48 + n % 10)

/-- Fixed two-digit zero-padded rendering (the strftime %m %d %H %M %S fields;
the rendered values are below 100 in the datetime domain). -/
def pad2 (n : Nat) : List Char := [digitCharOf (n / 10), digitCharOf n]

/-- Fixed four-digit zero-padded rendering (the strftime %Y field; datetime
years lie between 1 and 9999). -/
def pad4 (n : Nat) : List Char :=
  [digitCharOf (n / 1000), digitCharOf (n / 100), digitCharOf (n / 10), digitCharOf n]

/-- Fixed six-digit zero-padded rendering (the strftime %f field; microseconds
lie below 1000000). -/
def pad6 (n : Nat) : List Char :=
  [digitCharOf (n / 100000), digitCharOf (n / 10000), digitCharOf (n / 1000),
   digitCharOf (n / 100), digitCharOf (n / 10), digitCharOf n]

/-- Civil date (year, month, day) from days since the POSIX epoch, by the
standard era-decomposition algorithm for the proleptic Gregorian calendar. -/
def civilFromDays (z0 : Int) : Int × Nat × Nat :=
  let z := z0 + 719468
  let era := z.fdiv 146097
  let doe := (z - era * 146097).toNat
  let yoe := (doe - doe / 1460 + doe / 36524 - doe / 146096) / 365
  let doy := doe - (365 * yoe + yoe / 4 - yoe / 100)
  let mp := (5 * doy + 2) / 153
  let d := doy - (153 * mp + 2) / 5 + 1
  let m := if mp < 10 then mp + 3 else mp - 9
  let y : Int := era * 400 + yoe + (if m ≤ 2 then 1 else 0)
  (y, m, d)

/-- Embedding of autobkp._get_timestamp_str_from_px6: render an integer POSIX
microsecond timestamp as the 20-character string YYYYMMDDHHMMSSffffff. -/
def _get_timestamp_str_from_px6 (px6 : Int) : String :=
  let secs := px6.fdiv 1000000
  let micro := (px6 - secs * 1000000).toNat
  let days := secs.fdiv 86400
  let sod := (secs - days * 86400).toNat
  let c := civilFromDays days
  String.mk (pad4 c.1.toNat ++ pad2 c.2.1 ++ pad2 c.2.2 ++
             pad2 (sod / 3600) ++ pad2 (sod % 3600 / 60) ++ pad2 (sod % 60) ++ pad6 micro)

/-! ## Backup filename (autobkp._get_bkp_filename) -/

/-- Model of the Python compress argument (bool or str): none is False, a
string is itself; Python string truthiness makes the empty string false. -/
def comprTruthy : Option String → Bool
  | none => false
  | some s => decide (s ≠ "")

/-- Embedding of autobkp._get_bkp_filename: append .bkp, the mtime string and
._bkp_ to the destination path, plus .gz exactly when compress is the string
gzip (a falsy or gztar compress adds no extension; an unknown method only
logs).  Path normalization of the source is the identity here. -/
def _get_bkp_filename (dst_path : String) (mtime_utc : String)
    (compress : Option String) (_v : Verbose) : String :=
  let dst_path_new := dst_path ++ ".bkp" ++ mtime_utc ++ "._bkp_"
  if ¬ comprTruthy compress ∨ compress = some "gztar" then dst_path_new
  else if compress = some "gzip" then dst_path_new ++ ".gz"
  else dst_path_new

/-! ## Manifest data model

A Python filetree dict maps a filename to a value dict.  FileMeta is one
value dict restricted to the six scalar keys the code reads; a missing key
is the field being none.  The sub_files key is carried alongside as a
sub_present flag plus the subtree (ignored when the flag is false), keeping
the type a plain inductive.  A JSON value that is not a dict behaves in the
code exactly like an absent entry (both collapse to the empty dict), so the
model represents it as absence. -/

/-- Scalar fields of one filetree entry; none models the key being absent. -/
structure FileMeta where
  type      : Option String
  no_f      : Option Nat
  size      : Option Nat
  compr_mth : Option String
  mtime_px6 : Option Int
  mtime_utc : Option String
deriving DecidableEq, Repr

/-- A filetree dict in insertion order: each entry has a name, its scalar
fields, and a sub_files subtree present exactly when sub_present is true. -/
inductive FileTree where
  | nil : FileTree
  | cons (name : String) (meta : FileMeta) (sub_present : Bool)
         (sub : FileTree) (rest : FileTree) : FileTree
deriving DecidableEq, Repr

/-- Dict lookup: the entry of the given name, with its sub_files data. -/
def FileTree.find? : FileTree → String → Option (FileMeta × Bool × FileTree)
  | .nil, _ => none
  | .cons n m sp s r, key => if n = key then some (m, sp, s) else r.find? key

/-- Python truthiness of an entry dict: nonempty iff it has at least one key. -/
def entryTruthy (m : FileMeta) (sub_present : Bool) : Bool :=
  m.type.isSome || m.no_f.isSome || m.size.isSome || m.compr_mth.isSome ||
  m.mtime_px6.isSome || m.mtime_utc.isSome || sub_present

/-- The sanity check of _backup_sub on the new entry: the six required keys. -/
def requiredKeys (m : FileMeta) : Bool :=
  m.type.isSome && m.no_f.isSome && m.size.isSome && m.compr_mth.isSome &&
  m.mtime_px6.isSome && m.mtime_utc.isSome

/-- The check of _backup_sub on the old entry: type, size and mtime_px6. -/
def oldKeys (m : FileMeta) : Bool :=
  m.type.isSome && m.size.isSome && m.mtime_px6.isSome

/-! ## Source filesystem model (inputs of get_filetree)

A directory listing in os.listdir order; each entry carries the values the
code obtains by stat calls.  For a leaf, is_link records that os.path.isfile
is false for it (a symlink to a regular file scans as a file); readable
records whether the open-for-read permission test passes. -/

/-- Sibling list of filesystem nodes as scanned. -/
inductive FSTree where
  | nil : FSTree
  | leaf (name : String) (is_link : Bool) (size : Nat) (mtime_px6 : Int)
         (readable : Bool) (rest : FSTree) : FSTree
  | dirNode (name : String) (size : Nat) (mtime_px6 : Int)
            (children : FSTree) (rest : FSTree) : FSTree
deriving DecidableEq, Repr

/-- The single node a backup root path points at. -/
inductive FSRoot where
  | leaf (is_link : Bool) (size : Nat) (mtime_px6 : Int) (readable : Bool) : FSRoot
  | dirNode (size : Nat) (mtime_px6 : Int) (children : FSTree) : FSRoot
deriving DecidableEq, Repr

/-- Embedding of autobkp._get_dir_metadata folded over a sibling list: the
accumulator is the running total size and newest mtime, starting from the
owning directory's own stat values; every node is included (no ignore-list
filtering and no readability test in this walk). -/
def dirMetaAux : FSTree → Nat × Int → Nat × Int
  | .nil, acc => acc
  | .leaf _ _ sz mt _ r, (s, m) => dirMetaAux r (s + sz, if mt > m then mt else m)
  | .dirNode _ sz mt ch r, (s, m) =>
      let c := dirMetaAux ch (sz, mt)
      dirMetaAux r (s + c.1, if c.2 > m then c.2 else m)

/-! ## Scanner (autobkp.get_filetree) -/

/-- Sum of the no_f fields over a filetree dict (np.sum of the comprehension;
the scanner always sets the field, so the default is never taken). -/
def treeSumNoF : FileTree → Nat
  | .nil => 0
  | .cons _ m _ _ r => m.no_f.getD 0 + treeSumNoF r

/-- Sum of the size fields over a filetree dict. -/
def treeSumSize : FileTree → Nat
  | .nil => 0
  | .cons _ m _ _ r => m.size.getD 0 + treeSumSize r

/-- Newest mtime_px6 over a filetree dict: np.max of the comprehension with
initial value 0, so the empty dict yields 0. -/
def treeMaxMtime : FileTree → Int
  | .nil => 0
  | .cons _ m _ _ r => max (m.mtime_px6.getD 0) (treeMaxMtime r)

/-- Entry built by get_filetree for a file or symlink leaf. -/
def leafMeta (is_link : Bool) (sz : Nat) (mt : Int) : FileMeta :=
  { type := some (if is_link then "link" else "file"), no_f := some 1,
    size := some sz, compr_mth := some "gzip", mtime_px6 := some mt,
    mtime_utc := some (_get_timestamp_str_from_px6 mt) }

/-- Entry built by get_filetree for a directory it recursed into: no_f is one
plus the children's total, size is the directory's own stat size plus the
children's total, and mtime is the maximum of its own mtime and the
children's (floored at 0 by the np.max initial value). -/
def dirMeta (sz : Nat) (mt : Int) (sub : FileTree) : FileMeta :=
  let m := max mt (treeMaxMtime sub)
  { type := some "dir", no_f := some (1 + treeSumNoF sub),
    size := some (sz + treeSumSize sub), compr_mth := some "",
    mtime_px6 := some m, mtime_utc := some (_get_timestamp_str_from_px6 m) }

/-- Entry built by get_filetree for a directory on the archive list: no
recursion into children; size and mtime come from _get_dir_metadata, no_f
stays 1, and sub_files stays the empty dict. -/
def gztarMeta (sz : Nat) (mt : Int) (ch : FSTree) : FileMeta :=
  let d := dirMetaAux ch (sz, mt)
  { type := some "dir", no_f := some 1, size := some d.1,
    compr_mth := some "gztar", mtime_px6 := some d.2,
    mtime_utc := some (_get_timestamp_str_from_px6 d.2) }

/-- Embedding of the directory loop of get_filetree over a listing: a child
on the ignore list or failing the leaf readability test is dropped; a
directory child on the archive list gets gztarMeta with an empty sub dict;
any other directory child is scanned recursively. -/
def scanChildren (t : FSTree) (gz ig : List String) : FileTree :=
  match t with
  | .nil => .nil
  | .leaf name is_link sz mt readable rest =>
      if name ∈ ig then scanChildren rest gz ig
      else if readable then
        .cons name (leafMeta is_link sz mt) false .nil (scanChildren rest gz ig)
      else scanChildren rest gz ig
  | .dirNode name sz mt ch rest =>
      if name ∈ ig then scanChildren rest gz ig
      else if name ∈ gz then
        .cons name (gztarMeta sz mt ch) true .nil (scanChildren rest gz ig)
      else
        let sub := scanChildren ch gz ig
        .cons name (dirMeta sz mt sub) true sub (scanChildren rest gz ig)

/-- Embedding of get_filetree at the root path: returns none when the name is
ignored or an unreadable leaf (the nonexistent-path case of the source is a
path that is not in the model).  Returns the entry data keyed by the root
name. -/
def get_filetree (root : FSRoot) (name : String) (gz ig : List String) :
    Option (FileMeta × Bool × FileTree) :=
  if name ∈ ig then none
  else match root with
  | .leaf is_link sz mt readable =>
      if readable then some (leafMeta is_link sz mt, false, .nil) else none
  | .dirNode sz mt ch =>
      if name ∈ gz then some (gztarMeta sz mt ch, true, .nil)
      else
        let sub := scanChildren ch gz ig
        some (dirMeta sz mt sub, true, sub)

/-! ## Filesystem effects and errors -/

/-- One filesystem mutation performed by the run.  Read-only calls (stat,
exists, isdir, open-for-read) are not actions; logging output is not an
action except for the creation of the log file itself. -/
inductive FsAction where
  | copyFile (src dst : String) : FsAction
  | gzipFile (src dst : String) : FsAction
  | makeArchive (dst_noext : String) (root_dir base_dir : String) : FsAction
  | makedirs (path : String) : FsAction
  | writeManifest (path : String) (tree : FileTree) : FsAction
  | createLogFile (path : String) : FsAction
  | promoteLatest (src dst : String) : FsAction
deriving DecidableEq, Repr

/-- The Python exceptions the embedded code can raise. -/
inductive BkpError where
  | valueError : BkpError
  | notImplementedError : BkpError
  | keyError (key : String) : BkpError
  | typeError : BkpError
deriving DecidableEq, Repr

/-- The four counters returned by _backup_sub. -/
structure BkpCounts where
  no_skip : Nat
  no_copy : Nat
  no_tgz  : Nat
  no_dir  : Nat
deriving DecidableEq, Repr

/-- Componentwise sum of two counter records. -/
def BkpCounts.add (a b : BkpCounts) : BkpCounts :=
  ⟨a.no_skip + b.no_skip, a.no_copy + b.no_copy, a.no_tgz + b.no_tgz, a.no_dir + b.no_dir⟩

/-! ## Transfer executor (autobkp._save_bkp_file and _backup_sub) -/

/-- Embedding of _save_bkp_file at its call sites (action is always copy): a
falsy compress performs the plain metadata-preserving copy, gzip streams
through gzip compression, any other method only logs an error and does
nothing; a dry run performs no action in every branch. -/
def _save_bkp_file (src_path dst_path : String) (dry_run : Bool)
    (compress : Option String) (_v : Verbose) : List FsAction :=
  if ¬ comprTruthy compress then
    if dry_run then [] else [.copyFile src_path dst_path]
  else if compress = some "gzip" then
    if dry_run then [] else [.gzipFile src_path dst_path]
  else []

/-- Outcome of the skip-or-backup decision of _backup_sub for one entry:
either the exception that aborts the walk, or the final value of the
do_backup flag. -/
inductive Decision where
  | abort (e : BkpError) : Decision
  | run (do_backup : Bool) : Decision
deriving DecidableEq, Repr

/-- The decision logic of _backup_sub for one entry, in source order: a new
record missing a required key raises ValueError at fatal verbosity and is
otherwise treated as backed up already (do_backup stays False); with a
truthy old record, a non-shallow comparison request raises
NotImplementedError at fatal verbosity, an old record missing one of type,
size and mtime_px6 only logs (do_backup stays True), and matching type,
size and mtime_px6 clear do_backup. -/
def decideEntry (meta : FileMeta) (oldE : Option (FileMeta × Bool × FileTree))
    (filecmp_shallow : Bool) (v : Verbose) : Decision :=
  if ¬ requiredKeys meta then
    if is_verbose v (.rstr "fatal") then .abort .valueError else .run false
  else
    match oldE with
    | some (om, osp, _) =>
      if entryTruthy om osp then
        if ¬ filecmp_shallow ∧ is_verbose v (.rstr "fatal") then
          .abort .notImplementedError
        else if ¬ oldKeys om then .run true
        else if meta.mtime_px6 = om.mtime_px6 ∧ meta.size = om.size ∧
                meta.type = om.type then .run false
        else .run true
      else .run true
    | none => .run true

/-- The skip branch of _backup_sub: log at info verbosity (reading the type
key, which raises KeyError when absent) and add the entry's no_f (another
KeyError when absent) to the skip counter.  No filesystem action. -/
def bkpSkip (meta : FileMeta) (v : Verbose) :
    List FsAction × Except BkpError BkpCounts :=
  if is_verbose v (.rstr "info") ∧ meta.type = none then
    ([], .error (.keyError "type"))
  else
    match meta.no_f with
    | none => ([], .error (.keyError "no_f"))
    | some k => ([], .ok ⟨k, 0, 0, 0⟩)

/-- Sequencing of one entry's result with the result for the remaining
entries of the loop: an exception at the entry ends the walk with the
actions performed so far; otherwise the remaining entries run and the
counters add up. -/
def bkpStep (entry r : List FsAction × Except BkpError BkpCounts) :
    List FsAction × Except BkpError BkpCounts :=
  match entry.2 with
  | .error e => (entry.1, .error e)
  | .ok c1 =>
    match r.2 with
    | .error e => (entry.1 ++ r.1, .error e)
    | .ok c2 => (entry.1 ++ r.1, .ok (c1.add c2))

/-- Embedding of _backup_sub: walk the new filetree dict entry by entry
against the old dict, returning the actions performed in order and either
the four counters or the exception that aborted the walk (the actions
already performed before the exception are kept).  The oracles ex and isd
answer the os.path.exists and os.path.isdir queries on destination paths.

Per entry: the decision of decideEntry either aborts, skips through bkpSkip,
or backs up.  A file or link entry is copied through _save_bkp_file with its
compression method (an existing destination of the same name is only warned
about); a gztar directory entry is archived whole (an existing archive of
the same computed name is only warned about and is overwritten); any other
directory entry has its destination directory created when absent and is
recursed into, reading its sub_files key (KeyError when absent). -/
def bkpList (src_path dst_path : String) (newt old : FileTree)
    (filecmp_shallow dry_run : Bool) (v : Verbose) (ex isd : String → Bool) :
    List FsAction × Except BkpError BkpCounts :=
  match newt with
  | .nil => ([], .ok ⟨0, 0, 0, 0⟩)
  | .cons fname meta sub_present sub rest =>
    let src_filepath := src_path ++ "/" ++ fname
    let dst_base := dst_path ++ "/" ++ fname
    let backupBranch : List FsAction × Except BkpError BkpCounts :=
      match meta.type with
      | none => ([], .error (.keyError "type"))
      | some t =>
        if t = "file" ∨ t = "link" then
          let dst_filepath :=
            _get_bkp_filename dst_base (meta.mtime_utc.getD "") meta.compr_mth v
          (_save_bkp_file src_filepath dst_filepath dry_run meta.compr_mth v,
           .ok ⟨0, meta.no_f.getD 0, 0, 0⟩)
        else if t = "dir" then
          if meta.compr_mth = some "gztar" then
            let dst_noext := _get_bkp_filename dst_base (meta.mtime_utc.getD "") none v
            ((if dry_run then [] else [.makeArchive dst_noext src_path fname]),
             .ok ⟨0, 0, 1, 0⟩)
          else
            let mkActs : List FsAction :=
              if ¬ (ex dst_base ∧ isd dst_base) then
                if dry_run then [] else [.makedirs dst_base]
              else []
            if sub_present then
              let oldSub :=
                match old.find? fname with
                | some (_, true, s) => s
                | _ => FileTree.nil
              let r := bkpList src_filepath dst_base sub oldSub
                         filecmp_shallow dry_run v ex isd
              (mkActs ++ r.1,
               match r.2 with
               | .error e => .error e
               | .ok c => .ok ⟨c.no_skip, c.no_copy, c.no_tgz, c.no_dir + 1⟩)
            else (mkActs, .error (.keyError "sub_files"))
        else ([], .ok ⟨0, 0, 0, 0⟩)
    let entryRes : List FsAction × Except BkpError BkpCounts :=
      match decideEntry meta (old.find? fname) filecmp_shallow v with
      | .abort e => ([], .error e)
      | .run false => bkpSkip meta v
      | .run true => backupBranch
    bkpStep entryRes (bkpList src_path dst_path rest old filecmp_shallow dry_run v ex isd)

/-! ## Backup orchestrator (autobkp.backup)

The run is split into the logging preamble (backup) and the remainder after
it (backup_core), matching the source order: logging setup, scan, write of
the timestamped manifest, read of the latest manifest (the parsed result or
the empty dict on a missing or corrupt file is the oldManifest parameter),
destination root creation, the recursive transfer pass, and finally the
promotion of the timestamped manifest over the latest manifest.  Path
normalization is the identity and nowStr stands for the wall-clock
timestamp string taken at the start of the run. -/

/-- The tail of autobkp.backup around and after the transfer pass: on an
exception the run aborts with the actions performed so far; on success the
root directory joins the directory counter and the promotion actions (empty
on a dry run) follow the transfer actions. -/
def corePost (acts : List FsAction) (r : List FsAction × Except BkpError BkpCounts)
    (acts4 : List FsAction) (tree : FileTree) :
    List FsAction × Except BkpError (FileTree × BkpCounts) :=
  match r.2 with
  | .error e => (acts ++ r.1, .error e)
  | .ok c => (acts ++ r.1 ++ acts4,
              .ok (tree, ⟨c.no_skip, c.no_copy, c.no_tgz, c.no_dir + 1⟩))

/-- Everything autobkp.backup does after the logging preamble.  The verbose
value v is the possibly tuple-wrapped one, and acts1 the actions of the
preamble. -/
def backup_core (root : FSRoot) (src_path dst_path src_filename : String)
    (filecmp_shallow : Bool) (gz ig : List String) (dry_run : Bool)
    (v : Verbose) (oldManifest : FileTree) (ex isd : String → Bool)
    (nowStr : String) (acts1 : List FsAction) :
    List FsAction × Except BkpError (FileTree × BkpCounts) :=
  let dst_filepath := dst_path ++ "/" ++ src_filename
  let new_filetree_filename :=
    dst_path ++ "/_bkp_meta_/" ++ src_filename ++ ".filetree.bkp" ++ nowStr ++ ".json"
  let latest_filetree_filename :=
    dst_path ++ "/_bkp_meta_/" ++ src_filename ++ ".filetree.json"
  match get_filetree root src_filename gz ig with
  | none => (acts1, .error .typeError)
  | some (rootMeta, rootSp, rootSub) =>
    let tree := FileTree.cons src_filename rootMeta rootSp rootSub .nil
    let acts2 :=
      match dry_run with
      | true => []
      | false => [FsAction.writeManifest new_filetree_filename tree]
    match rootSp with
    | true =>
      let old_dict :=
        match oldManifest.find? src_filename with
        | some (_, true, s) => s
        | _ => FileTree.nil
      let acts3 :=
        if ¬ (ex dst_filepath ∧ isd dst_filepath) then
          match dry_run with
          | true => []
          | false => [FsAction.makedirs dst_filepath]
        else []
      let acts4 :=
        match dry_run with
        | true => []
        | false => [FsAction.promoteLatest new_filetree_filename latest_filetree_filename]
      corePost (acts1 ++ acts2 ++ acts3)
        (bkpList src_path dst_filepath rootSub old_dict filecmp_shallow dry_run v ex isd)
        acts4 tree
    | false => (acts1 ++ acts2, .error (.keyError "sub_files"))

/-- Embedding of autobkp.backup.  With a truthy log_lvl the preamble demands
an int (or bool) verbose and raises TypeError otherwise, creates the
_bkp_meta_ directory when absent regardless of dry_run, creates the log
file, and wraps the verbose value into a tuple with the logger. -/
def backup (root : FSRoot) (src_path dst_path src_filename : String)
    (filecmp_shallow : Bool) (gz ig : List String) (dry_run : Bool)
    (log_lvl : Int) (v : Verbose) (oldManifest : FileTree)
    (ex isd : String → Bool) (nowStr : String) :
    List FsAction × Except BkpError (FileTree × BkpCounts) :=
  let meta_dir := dst_path ++ "/_bkp_meta_"
  let log_filename :=
    dst_path ++ "/_bkp_meta_/" ++ src_filename ++ ".filetree.bkp" ++ nowStr ++ ".log"
  if log_lvl ≠ 0 then
    match v with
    | .vtup _ => ([], .error .typeError)
    | v0 =>
      let acts1 :=
        (if ¬ (ex meta_dir ∧ isd meta_dir) then [FsAction.makedirs meta_dir] else []) ++
        [FsAction.createLogFile log_filename]
      backup_core root src_path dst_path src_filename filecmp_shallow gz ig
        dry_run (.vtup v0) oldManifest ex isd nowStr acts1
  else
    backup_core root src_path dst_path src_filename filecmp_shallow gz ig
      dry_run v oldManifest ex isd nowStr []

/-! ## Helper predicates and basic facts -/

/-- Whether an action is the promotion of the latest manifest. -/
def FsAction.isPromote : FsAction → Bool
  | .promoteLatest _ _ => true
  | _ => false

/-- Whether an action transfers payload data (plain copy, gzip copy, or
archive creation). -/
def FsAction.isTransfer : FsAction → Bool
  | .copyFile _ _ => true
  | .gzipFile _ _ => true
  | .makeArchive _ _ _ => true
  | _ => false

/-- Whether an Except result is a success. -/
def exceptOk {ε α : Type} : Except ε α → Bool
  | .ok _ => true
  | .error _ => false

/-! ## Specification-side counting functions

specLeafCount and entryLeafCount follow the spec's words (the number of
File/SymLink leaves in an entry's subtree); specEntryCount counts every
snapshot entry of a subtree.  They are compared against the no_f field the
scanner actually computes. -/

/-- Number of entries of type file or link in a filetree dict, recursively. -/
def specLeafCount : FileTree → Nat
  | .nil => 0
  | .cons _ m spn s r =>
      (if m.type = some "file" ∨ m.type = some "link" then 1 else 0) +
      (if spn then specLeafCount s else 0) + specLeafCount r

/-- Number of File/SymLink leaves in one entry's subtree, itself included
when it is a leaf (the quantity the claim says no_f equals). -/
def entryLeafCount (m : FileMeta) (spn : Bool) (s : FileTree) : Nat :=
  (if m.type = some "file" ∨ m.type = some "link" then 1 else 0) +
  (if spn then specLeafCount s else 0)

/-- Whether every entry of a filetree dict has no_f equal to the leaf count
of its subtree (the claim's statement, as a checkable predicate). -/
def noFEqualsLeafCount : FileTree → Bool
  | .nil => true
  | .cons _ m spn s r =>
      (m.no_f == some (entryLeafCount m spn s)) &&
      noFEqualsLeafCount s && noFEqualsLeafCount r

/-- Number of snapshot entries in a filetree dict, recursively (each file,
link and directory entry counts one). -/
def specEntryCount : FileTree → Nat
  | .nil => 0
  | .cons _ _ spn s r =>
      1 + (if spn then specEntryCount s else 0) + specEntryCount r

/-- Whether one entry's no_f equals one plus the entry count of its subtree,
that is, the number of snapshot entries of the subtree rooted at it. -/
def entryNoFOk (m : FileMeta) (spn : Bool) (s : FileTree) : Bool :=
  m.no_f == some (1 + (if spn then specEntryCount s else 0))

/-- entryNoFOk at every entry of a filetree dict, recursively. -/
def noFMatches : FileTree → Bool
  | .nil => true
  | .cons _ m spn s r => entryNoFOk m spn s && noFMatches s && noFMatches r

/-! ## Concrete demonstration data

The two-run scenario of the spec: a source directory holding one plain file
and one directory on the archive list (with five files inside). -/

/-- Listing of the archived directory: five readable plain files. -/
def demoGitChildren : FSTree :=
  .leaf "f1" false 10 3 true (.leaf "f2" false 11 4 true (.leaf "f3" false 12 5 true
    (.leaf "f4" false 13 6 true (.leaf "f5" false 14 7 true .nil))))

/-- The source root: a directory with one plain file and the archived dir. -/
def demoRoot : FSRoot :=
  .dirNode 4096 10 (.leaf "a.txt" false 100 5 true (.dirNode ".git" 4096 7 demoGitChildren .nil))

/-- The archive list of the scenario. -/
def demoGztar : List String := [".git"]

/-- The ignore list of the scenario (the source defaults). -/
def demoIgnore : List String := ["__pycache__", ".ipynb_checkpoints"]

/-- The snapshot the scanner produces for demoRoot, written out. -/
def demoTree : FileTree :=
  .cons "data"
    { type := some "dir", no_f := some 3, size := some 8352, compr_mth := some "",
      mtime_px6 := some 10, mtime_utc := some "19700101000000000010" }
    true
    (.cons "a.txt"
      { type := some "file", no_f := some 1, size := some 100, compr_mth := some "gzip",
        mtime_px6 := some 5, mtime_utc := some "19700101000000000005" }
      false .nil
      (.cons ".git"
        { type := some "dir", no_f := some 1, size := some 4156, compr_mth := some "gztar",
          mtime_px6 := some 7, mtime_utc := some "19700101000000000007" }
        true .nil .nil))
    .nil

/-- First run: empty destination (nothing exists), no old manifest. -/
def demoRun1 : List FsAction × Except BkpError (FileTree × BkpCounts) :=
  backup demoRoot "src/data" "dst" "data" true demoGztar demoIgnore false 10
    (.vint 4) .nil (fun _ => false) (fun _ => false) "T1"

/-- Second run, unchanged source: the latest manifest is the tree the first
run wrote and promoted, and the destination paths all exist. -/
def demoRun2 : List FsAction × Except BkpError (FileTree × BkpCounts) :=
  backup demoRoot "src/data" "dst" "data" true demoGztar demoIgnore false 10
    (.vint 4) demoTree (fun _ => true) (fun _ => true) "T2"

/-- A directory holding one file, for the no_f counting questions. -/
def c8fs : FSTree := .dirNode "d" 4096 0 (.leaf "f" false 10 0 true .nil) .nil

/-- A file entry record missing the required mtime_utc key. -/
def badMeta : FileMeta :=
  { type := some "file", no_f := some 1, size := some 5, compr_mth := some "gzip",
    mtime_px6 := some 0, mtime_utc := none }

theorem _save_bkp_file_dry (s d : String) (c : Option String) (v : Verbose) :
    _save_bkp_file s d true c v = [] := by
  simp [_save_bkp_file]

theorem bkpSkip_actions (m : FileMeta) (v : Verbose) : (bkpSkip m v).1 = [] := by
  unfold bkpSkip
  repeat' split
  all_goals rfl

theorem bkpStep_actions_nil {entry r : List FsAction × Except BkpError BkpCounts}
    (he : entry.1 = []) (hr : r.1 = []) : (bkpStep entry r).1 = [] := by
  unfold bkpStep
  rcases entry with ⟨ea, eres⟩
  rcases r with ⟨ra, rres⟩
  simp only at he hr
  subst he
  subst hr
  rcases eres with e | c1
  · rfl
  · rcases rres with e | c2 <;> rfl

/-- A dry run of the transfer pass performs no filesystem action at all. -/
theorem bkpList_dry_actions (newt : FileTree) : ∀ src dst old sh v ex isd,
    (bkpList src dst newt old sh true v ex isd).1 = [] := by
  induction newt with
  | nil => intros; rfl
  | cons fname meta sp sub rest ihs ihr =>
    intro src dst old sh v ex isd
    simp only [bkpList]
    apply bkpStep_actions_nil
    · rcases hdec : decideEntry meta (old.find? fname) sh v with e | b
      · rfl
      · rcases b with _ | _
        · exact bkpSkip_actions meta v
        · rcases htype : meta.type with _ | t
          · rfl
          · by_cases hft : t = "file" ∨ t = "link"
            · simp only [if_pos hft]
              exact _save_bkp_file_dry _ _ _ _
            · by_cases hdir : t = "dir"
              · simp only [if_neg hft, if_pos hdir]
                by_cases hgz : meta.compr_mth = some "gztar"
                · simp [hgz]
                · simp only [if_neg hgz]
                  rcases sp with _ | _
                  · simp
                  · simp [ihs]
              · simp only [if_neg hft, if_neg hdir]
    · exact ihr src dst old sh v ex isd

theorem bkpStep_actions_all {p : FsAction → Bool}
    {entry r : List FsAction × Except BkpError BkpCounts}
    (he : entry.1.all p = true) (hr : r.1.all p = true) :
    (bkpStep entry r).1.all p = true := by
  unfold bkpStep
  rcases entry with ⟨ea, eres⟩
  rcases r with ⟨ra, rres⟩
  rcases eres with e | c1
  · exact he
  · rcases rres with e | c2 <;> simp_all [List.all_append]

theorem _save_bkp_file_no_promote (s d : String) (dry : Bool) (c : Option String)
    (v : Verbose) : ((_save_bkp_file s d dry c v).all fun a => !a.isPromote) = true := by
  unfold _save_bkp_file
  repeat' split
  all_goals rfl

/-- The transfer pass never emits a manifest-promotion action. -/
theorem bkpList_no_promote (newt : FileTree) : ∀ src dst old sh dry v ex isd,
    (((bkpList src dst newt old sh dry v ex isd).1.all fun a => !a.isPromote)) = true := by
  induction newt with
  | nil => intros; rfl
  | cons fname meta sp sub rest ihs ihr =>
    intro src dst old sh dry v ex isd
    simp only [bkpList]
    apply bkpStep_actions_all
    · rcases hdec : decideEntry meta (old.find? fname) sh v with e | b
      · rfl
      · rcases b with _ | _
        · rw [bkpSkip_actions]
          rfl
        · rcases htype : meta.type with _ | t
          · rfl
          · by_cases hft : t = "file" ∨ t = "link"
            · simp only [if_pos hft]
              exact _save_bkp_file_no_promote _ _ _ _ _
            · by_cases hdir : t = "dir"
              · simp only [if_neg hft, if_pos hdir]
                by_cases hgz : meta.compr_mth = some "gztar"
                · simp only [if_pos hgz]
                  rcases dry with _ | _ <;> rfl
                · simp only [if_neg hgz]
                  rcases sp with _ | _
                  · rw [if_neg (by simp : ¬ (false = true))]
                    repeat' split
                    all_goals rfl
                  · rw [if_pos rfl]
                    try dsimp only
                    simp only [List.all_append, Bool.and_eq_true]
                    refine ⟨?_, ihs _ _ _ _ _ _ _ _⟩
                    repeat' split
                    all_goals rfl
              · simp only [if_neg hft, if_neg hdir]
                rfl
    · exact ihr src dst old sh dry v ex isd

theorem all_dropLast {p : FsAction → Bool} {l : List FsAction} (h : l.all p = true) :
    l.dropLast.all p = true := by
  rw [List.all_eq_true] at h ⊢
  intro a ha
  exact h a (List.dropLast_subset l ha)

theorem ite_false_bool {α : Type} (a b : α) : (if false = true then a else b) = b := by
  simp

theorem ite_true_bool {α : Type} (a b : α) : (if true = true then a else b) = a := by
  simp

theorem corePost_actions_nil (A : List FsAction)
    (r : List FsAction × Except BkpError BkpCounts) (t : FileTree)
    (hr : r.1 = []) : (corePost A r [] t).1 = A := by
  unfold corePost
  rcases r with ⟨ra, rr⟩
  simp only at hr
  subst hr
  rcases rr with e | c <;> simp

theorem corePost_promote (A : List FsAction)
    (r : List FsAction × Except BkpError BkpCounts) (a4 : List FsAction) (t : FileTree)
    (hA : (A.all fun a => !a.isPromote) = true)
    (hr : (r.1.all fun a => !a.isPromote) = true)
    (h4 : a4 = [] ∨ ∃ x y, a4 = [FsAction.promoteLatest x y]) :
    ((corePost A r a4 t).1.dropLast.all fun a => !a.isPromote) = true ∧
    (exceptOk (corePost A r a4 t).2 = false →
      ((corePost A r a4 t).1.all fun a => !a.isPromote) = true) := by
  unfold corePost
  rcases r with ⟨ra, rr⟩
  simp only at hr
  have hAr : ((A ++ ra).all fun a => !a.isPromote) = true := by
    simp [List.all_append, hA, hr]
  rcases rr with e | c
  · exact ⟨all_dropLast hAr, fun _ => hAr⟩
  · refine ⟨?_, fun hko => by simp [exceptOk] at hko⟩
    rcases h4 with h4 | ⟨x, y, h4⟩ <;> subst h4
    · simpa using all_dropLast hAr
    · dsimp only
      rw [List.dropLast_concat]
      exact hAr

/-- A dry run of backup_core adds no action beyond those of the preamble. -/
theorem backup_core_dry (root : FSRoot) (sp dp sf : String) (sh : Bool)
    (gz ig : List String) (v : Verbose) (old : FileTree) (ex isd : String → Bool)
    (now : String) (acts1 : List FsAction) :
    (backup_core root sp dp sf sh gz ig true v old ex isd now acts1).1 = acts1 := by
  unfold backup_core
  rcases hscan : get_filetree root sf gz ig with _ | ⟨m, b, s⟩
  · rfl
  · rcases b with _ | _
    · simp
    · dsimp only
      rw [show (if ¬ (ex (dp ++ "/" ++ sf) ∧ isd (dp ++ "/" ++ sf)) then
            ([] : List FsAction) else []) = [] from ite_self _]
      rw [List.append_nil, List.append_nil, corePost_actions_nil]
      exact bkpList_dry_actions _ _ _ _ _ _ _ _

/-- Every action of backup_core not satisfying a predicate already holds of
the preamble trace is a non-promotion, and a promotion action can only occur
as the very last action of a successful non-dry run. -/
theorem backup_core_promote (root : FSRoot) (sp dp sf : String) (sh : Bool)
    (gz ig : List String) (dry : Bool) (v : Verbose) (old : FileTree)
    (ex isd : String → Bool) (now : String) (acts1 : List FsAction)
    (h1 : (acts1.all fun a => !a.isPromote) = true) :
    ((backup_core root sp dp sf sh gz ig dry v old ex isd now acts1).1.dropLast.all
        fun a => !a.isPromote) = true ∧
    (dry = true →
      ((backup_core root sp dp sf sh gz ig dry v old ex isd now acts1).1.all
          fun a => !a.isPromote) = true) ∧
    (exceptOk (backup_core root sp dp sf sh gz ig dry v old ex isd now acts1).2 = false →
      ((backup_core root sp dp sf sh gz ig dry v old ex isd now acts1).1.all
          fun a => !a.isPromote) = true) := by
  rcases dry with _ | _
  · unfold backup_core
    rcases hscan : get_filetree root sf gz ig with _ | ⟨m, b, s⟩
    · exact ⟨all_dropLast h1, fun hd => absurd hd Bool.false_ne_true, fun _ => h1⟩
    · rcases b with _ | _
      · dsimp only
        have hall : ((acts1 ++
            [FsAction.writeManifest
              (dp ++ "/_bkp_meta_/" ++ sf ++ ".filetree.bkp" ++ now ++ ".json")
              (FileTree.cons sf m false s FileTree.nil)]).all fun a => !a.isPromote) = true := by
          simp only [List.all_append, h1, Bool.true_and]
          rfl
        exact ⟨all_dropLast hall, fun hd => absurd hd Bool.false_ne_true, fun _ => hall⟩
      · dsimp only
        have h3 : ((if ¬ (ex (dp ++ "/" ++ sf) ∧ isd (dp ++ "/" ++ sf)) then
            [FsAction.makedirs (dp ++ "/" ++ sf)] else []).all fun a => !a.isPromote) = true := by
          split <;> rfl
        have hA : (((acts1 ++
            [FsAction.writeManifest
              (dp ++ "/_bkp_meta_/" ++ sf ++ ".filetree.bkp" ++ now ++ ".json")
              (FileTree.cons sf m true s FileTree.nil)] ++
            (if ¬ (ex (dp ++ "/" ++ sf) ∧ isd (dp ++ "/" ++ sf)) then
              [FsAction.makedirs (dp ++ "/" ++ sf)] else []))).all fun a => !a.isPromote) = true := by
          simp only [List.all_append, h1, h3, Bool.and_self, Bool.true_and, Bool.and_true]
          rfl
        have hc := corePost_promote
          (acts1 ++
            [FsAction.writeManifest
              (dp ++ "/_bkp_meta_/" ++ sf ++ ".filetree.bkp" ++ now ++ ".json")
              (FileTree.cons sf m true s FileTree.nil)] ++
            (if ¬ (ex (dp ++ "/" ++ sf) ∧ isd (dp ++ "/" ++ sf)) then
              [FsAction.makedirs (dp ++ "/" ++ sf)] else []))
          (bkpList sp (dp ++ "/" ++ sf) s
            (match old.find? sf with
             | some (_, true, t) => t
             | _ => FileTree.nil) sh false v ex isd)
          [FsAction.promoteLatest
            (dp ++ "/_bkp_meta_/" ++ sf ++ ".filetree.bkp" ++ now ++ ".json")
            (dp ++ "/_bkp_meta_/" ++ sf ++ ".filetree.json")]
          (FileTree.cons sf m true s FileTree.nil) hA
          (bkpList_no_promote _ _ _ _ _ _ _ _ _)
          (Or.inr ⟨dp ++ "/_bkp_meta_/" ++ sf ++ ".filetree.bkp" ++ now ++ ".json",
                   dp ++ "/_bkp_meta_/" ++ sf ++ ".filetree.json", rfl⟩)
        exact ⟨hc.1, fun hd => absurd hd Bool.false_ne_true, hc.2⟩
  · have ht := backup_core_dry root sp dp sf sh gz ig v old ex isd now acts1
    rw [ht]
    exact ⟨all_dropLast h1, fun _ => h1, fun _ => h1⟩

/-! ## Facts about the per-entry decision -/

theorem is_verbose_vint_fatal (n : Int) :
    is_verbose (.vint n) (.rstr "fatal") = decide (0 ≤ n) := rfl

theorem is_verbose_vint_info (n : Int) :
    is_verbose (.vint n) (.rstr "info") = decide (4 ≤ n) := rfl

theorem is_verbose_vbool_str (b : Bool) (s : String) :
    is_verbose (.vbool b) (.rstr s) = b := rfl

/-- A schema-violating new record aborts the walk with ValueError when the
fatal verbosity test passes. -/
theorem bkpList_bad_fatal (src dst fname : String) (meta : FileMeta) (spn : Bool)
    (sub rest old : FileTree) (sh dry : Bool) (v : Verbose) (ex isd : String → Bool)
    (hbad : requiredKeys meta = false)
    (hfatal : is_verbose v (.rstr "fatal") = true) :
    bkpList src dst (.cons fname meta spn sub rest) old sh dry v ex isd
      = ([], .error .valueError) := by
  have hdec : decideEntry meta (old.find? fname) sh v = .abort .valueError := by
    unfold decideEntry
    rw [if_pos (show ¬ requiredKeys meta = true by simp [hbad]), if_pos hfatal]
  simp only [bkpList, hdec]
  rfl

/-- A schema-violating new record is skip-counted when the fatal verbosity
test fails (and the info test fails too, so the type key is not read). -/
theorem bkpList_bad_skip (src dst fname : String) (meta : FileMeta) (spn : Bool)
    (sub old : FileTree) (sh dry : Bool) (v : Verbose) (ex isd : String → Bool) (k : Nat)
    (hbad : requiredKeys meta = false)
    (hfatal : is_verbose v (.rstr "fatal") = false)
    (hinfo : is_verbose v (.rstr "info") = false)
    (hnf : meta.no_f = some k) :
    bkpList src dst (.cons fname meta spn sub .nil) old sh dry v ex isd
      = ([], .ok ⟨k, 0, 0, 0⟩) := by
  have hdec : decideEntry meta (old.find? fname) sh v = .run false := by
    unfold decideEntry
    rw [if_pos (show ¬ requiredKeys meta = true by simp [hbad]),
        if_neg (show ¬ is_verbose v (.rstr "fatal") = true by simp [hfatal])]
  have hninfo : ¬ (is_verbose v (.rstr "info") = true ∧ meta.type = none) := by
    rintro ⟨h1, _⟩
    rw [hinfo] at h1
    exact Bool.false_ne_true h1
  have hskip : bkpSkip meta v = ([], .ok ⟨k, 0, 0, 0⟩) := by
    unfold bkpSkip
    rw [if_neg hninfo, hnf]
  simp only [bkpList, hdec, hskip]
  rfl

/-- An old record whose type key equals that of a record passing the sanity
check is a nonempty dict. -/
theorem truthy_of_type_eq {meta om : FileMeta} {osp : Bool}
    (hreq : requiredKeys meta = true) (ht : om.type = meta.type) :
    entryTruthy om osp = true := by
  rcases hmt : meta.type with _ | tv
  · rw [requiredKeys, hmt] at hreq
    simp at hreq
  · unfold entryTruthy
    rw [ht, hmt]
    rfl

/-- The Skip verdict: a present old record agreeing on type, size and
mtime_px6 makes the entry skip-counted with no action, provided the
non-shallow fatal abort does not fire. -/
theorem bkpList_match_skip (src dst fname : String) (meta om : FileMeta)
    (spn osp : Bool) (sub osub old : FileTree) (sh dry : Bool) (v : Verbose)
    (ex isd : String → Bool) (k : Nat)
    (hfind : old.find? fname = some (om, osp, osub))
    (hreq : requiredKeys meta = true)
    (hnf : meta.no_f = some k)
    (ht : om.type = meta.type) (hs : om.size = meta.size)
    (hm : om.mtime_px6 = meta.mtime_px6)
    (hni : ¬ (¬ sh = true ∧ is_verbose v (.rstr "fatal") = true)) :
    bkpList src dst (.cons fname meta spn sub .nil) old sh dry v ex isd
      = ([], .ok ⟨k, 0, 0, 0⟩) := by
  have h6 := hreq
  rw [requiredKeys] at h6
  simp only [Bool.and_eq_true] at h6
  obtain ⟨⟨⟨⟨⟨hty, hno⟩, hsz⟩, hcm⟩, hmp⟩, hmu⟩ := h6
  have htruthy : entryTruthy om osp = true := truthy_of_type_eq hreq ht
  have hok : oldKeys om = true := by
    unfold oldKeys
    rw [ht, hs, hm]
    simp [hty, hsz, hmp]
  have hdec : decideEntry meta (old.find? fname) sh v = .run false := by
    unfold decideEntry
    rw [hfind]
    rw [if_neg (show ¬ ¬ requiredKeys meta = true by simp [hreq])]
    dsimp only
    rw [if_pos htruthy, if_neg hni,
        if_neg (show ¬ ¬ oldKeys om = true by simp [hok]),
        if_pos ⟨hm.symm, hs.symm, ht.symm⟩]
  have hninfo : ¬ (is_verbose v (.rstr "info") = true ∧ meta.type = none) := by
    rintro ⟨_, h2⟩
    rw [h2] at hty
    simp at hty
  have hskip : bkpSkip meta v = ([], .ok ⟨k, 0, 0, 0⟩) := by
    unfold bkpSkip
    rw [if_neg hninfo, hnf]
  simp only [bkpList, hdec, hskip]
  rfl

/-- The NotImplementedError abort: a truthy old record under a non-shallow
comparison request at fatal verbosity. -/
theorem bkpList_nie (src dst fname : String) (meta om : FileMeta) (spn osp : Bool)
    (sub osub old rest : FileTree) (dry : Bool) (v : Verbose) (ex isd : String → Bool)
    (hreq : requiredKeys meta = true)
    (hfind : old.find? fname = some (om, osp, osub))
    (htruthy : entryTruthy om osp = true)
    (hfatal : is_verbose v (.rstr "fatal") = true) :
    bkpList src dst (.cons fname meta spn sub rest) old false dry v ex isd
      = ([], .error .notImplementedError) := by
  have hdec : decideEntry meta (old.find? fname) false v = .abort .notImplementedError := by
    unfold decideEntry
    rw [hfind]
    rw [if_neg (show ¬ ¬ requiredKeys meta = true by simp [hreq])]
    dsimp only
    rw [if_pos htruthy, if_pos ⟨by simp, hfatal⟩]
  simp only [bkpList, hdec]
  rfl

/-- A changed archive-list directory entry is archived through make_archive
regardless of whether a destination archive of the computed name exists. -/
theorem bkpList_archive (src dst fname : String) (meta : FileMeta) (spn : Bool)
    (sub old : FileTree) (sh : Bool) (v : Verbose) (ex isd : String → Bool)
    (hreq : requiredKeys meta = true)
    (htype : meta.type = some "dir")
    (hgz : meta.compr_mth = some "gztar")
    (hold : old.find? fname = none) :
    bkpList src dst (.cons fname meta spn sub .nil) old sh false v ex isd
      = ([.makeArchive
            (_get_bkp_filename (dst ++ "/" ++ fname) (meta.mtime_utc.getD "") none v)
            src fname], .ok ⟨0, 0, 1, 0⟩) := by
  have hdec : decideEntry meta (old.find? fname) sh v = .run true := by
    unfold decideEntry
    rw [hold, if_neg (show ¬ ¬ requiredKeys meta = true by simp [hreq])]
  simp only [bkpList, hdec, htype]
  simp [hgz, bkpStep, BkpCounts.add]

/-! ## Facts about the timestamp rendering and the scanner's no_f field -/

theorem digitCharOf_isDigit (n : Nat) : (digitCharOf n).isDigit = true := by
  unfold digitCharOf
  have h : n % 10 < 10 := Nat.mod_lt _ (by decide)
  set m := n % 10 with hm
  interval_cases m <;> decide

/-- On a dict whose entries all satisfy entryNoFOk, the no_f sum equals the
entry count. -/
theorem noFMatches_sum (t : FileTree) (h : noFMatches t = true) :
    treeSumNoF t = specEntryCount t := by
  induction t with
  | nil => rfl
  | cons name m spn s r ihs ihr =>
    rw [noFMatches] at h
    simp only [Bool.and_eq_true, entryNoFOk, beq_iff_eq] at h
    obtain ⟨⟨h1, h2⟩, h3⟩ := h
    rw [treeSumNoF, specEntryCount, h1, ihr h3]
    simp

/-- Every entry the scanner produces over a listing satisfies entryNoFOk. -/
theorem scanChildren_noFMatches (t : FSTree) : ∀ gz ig,
    noFMatches (scanChildren t gz ig) = true := by
  induction t with
  | nil => intro _ _; rfl
  | leaf name il sz mt rd rest ihr =>
    intro gz ig
    rw [scanChildren]
    by_cases hig : name ∈ ig
    · rw [if_pos hig]
      exact ihr gz ig
    · rw [if_neg hig]
      by_cases hrd : rd = true
      · rw [if_pos hrd, noFMatches]
        simp [entryNoFOk, leafMeta, specEntryCount, noFMatches, ihr gz ig]
      · rw [if_neg hrd]
        exact ihr gz ig
  | dirNode name sz mt ch rest ihs ihr =>
    intro gz ig
    rw [scanChildren]
    by_cases hig : name ∈ ig
    · rw [if_pos hig]
      exact ihr gz ig
    · rw [if_neg hig]
      by_cases hgz : name ∈ gz
      · rw [if_pos hgz, noFMatches]
        simp [entryNoFOk, gztarMeta, specEntryCount, noFMatches, ihr gz ig]
      · rw [if_neg hgz, noFMatches]
        simp only [Bool.and_eq_true]
        refine ⟨⟨?_, ihs gz ig⟩, ihr gz ig⟩
        simp [entryNoFOk, dirMeta, noFMatches_sum _ (ihs gz ig)]

/-- The root entry the scanner produces satisfies entryNoFOk, and so does
every entry of its subtree. -/
theorem get_filetree_noFOk (root : FSRoot) : ∀ name gz ig,
    ((get_filetree root name gz ig).all fun e =>
        entryNoFOk e.1 e.2.1 e.2.2 && noFMatches e.2.2) = true := by
  intro name gz ig
  unfold get_filetree
  by_cases hig : name ∈ ig
  · rw [if_pos hig]
    rfl
  · rw [if_neg hig]
    rcases root with ⟨il, lsz, lmt, rd⟩ | ⟨sz, mt, ch⟩
    all_goals dsimp only
    · by_cases hrd : rd = true
      · rw [if_pos hrd]
        simp [Option.all, entryNoFOk, leafMeta, specEntryCount, noFMatches]
      · rw [if_neg hrd]
        rfl
    · by_cases hgz : name ∈ gz
      · rw [if_pos hgz]
        simp [Option.all, entryNoFOk, gztarMeta, specEntryCount, noFMatches]
      · rw [if_neg hgz]
        simp only [Option.all, Bool.and_eq_true]
        refine ⟨?_, scanChildren_noFMatches ch gz ig⟩
        simp [entryNoFOk, dirMeta, noFMatches_sum _ (scanChildren_noFMatches ch gz ig)]

/-! ## Claims -/

/-- C1: for every entry processed by the diff pass, if the old manifest
entry is present as a dict containing the keys type, size and mtime_px6,
all equal to those of the new snapshot entry, the verdict is Skip: no copy,
no archive and no directory creation happen for that entry, and the skipped
counter is incremented by the entry's file count (no_f).  Stated for a new
record holding the six required keys, under the shallow comparison mode in
which the diff runs. -/
theorem entry_skip_on_metadata_match (src dst fname : String) (meta om : FileMeta)
    (spn osp : Bool) (sub osub old : FileTree) (dry : Bool) (v : Verbose)
    (ex isd : String → Bool) (k : Nat)
    (hfind : old.find? fname = some (om, osp, osub))
    (hreq : requiredKeys meta = true)
    (hnf : meta.no_f = some k)
    (ht : om.type = meta.type) (hs : om.size = meta.size)
    (hm : om.mtime_px6 = meta.mtime_px6) :
    bkpList src dst (.cons fname meta spn sub .nil) old true dry v ex isd
      = ([], .ok ⟨k, 0, 0, 0⟩) :=
  bkpList_match_skip src dst fname meta om spn osp sub osub old true dry v ex isd k
    hfind hreq hnf ht hs hm (fun h => h.1 rfl)

theorem entry_skip_on_metadata_match_witness :
    bkpList "s" "d" (.cons "a" (leafMeta false 5 0) false .nil .nil)
      (.cons "a" (leafMeta false 5 0) false .nil .nil) true false (.vint 4)
      (fun _ => false) (fun _ => false) = ([], .ok ⟨1, 0, 0, 0⟩) :=
  entry_skip_on_metadata_match "s" "d" "a" (leafMeta false 5 0) (leafMeta false 5 0)
    false false .nil .nil (.cons "a" (leafMeta false 5 0) false .nil .nil) false (.vint 4)
    (fun _ => false) (fun _ => false) 1 rfl rfl rfl rfl rfl rfl

/-- C2: running backup twice in succession with no source changes, on a
source with one plain file and one archive-listed directory: the first run
copies the file, archives the directory, writes the snapshot manifest and
promotes it to latest; the second run, diffing against that manifest,
returns counts skip 2, copy 0, archive 0 and performs no copy, gzip,
archive or directory-creation action. -/
theorem second_run_all_skipped :
    demoRun1.2 = .ok (demoTree, ⟨0, 1, 1, 1⟩) ∧
    demoRun1.1 = [FsAction.makedirs "dst/_bkp_meta_",
      FsAction.createLogFile "dst/_bkp_meta_/data.filetree.bkpT1.log",
      FsAction.writeManifest "dst/_bkp_meta_/data.filetree.bkpT1.json" demoTree,
      FsAction.makedirs "dst/data",
      FsAction.gzipFile "src/data/a.txt" "dst/data/a.txt.bkp19700101000000000005._bkp_.gz",
      FsAction.makeArchive "dst/data/.git.bkp19700101000000000007._bkp_" "src/data" ".git",
      FsAction.promoteLatest "dst/_bkp_meta_/data.filetree.bkpT1.json"
        "dst/_bkp_meta_/data.filetree.json"] ∧
    demoRun2.2 = .ok (demoTree, ⟨2, 0, 0, 1⟩) ∧
    demoRun2.1 = [FsAction.createLogFile "dst/_bkp_meta_/data.filetree.bkpT2.log",
      FsAction.writeManifest "dst/_bkp_meta_/data.filetree.bkpT2.json" demoTree,
      FsAction.promoteLatest "dst/_bkp_meta_/data.filetree.bkpT2.json"
        "dst/_bkp_meta_/data.filetree.json"] :=
  ⟨rfl, rfl, rfl, rfl⟩

/-- C3: the latest manifest is overwritten (promoteLatest) only as the very
last action, after the entire recursive transfer pass has returned; never
on a dry run; and never when the run aborts with an exception. -/
theorem promote_only_after_success (root : FSRoot) (sp dp sf : String) (sh : Bool)
    (gz ig : List String) (dry : Bool) (ll : Int) (v : Verbose) (old : FileTree)
    (ex isd : String → Bool) (now : String) :
    (((backup root sp dp sf sh gz ig dry ll v old ex isd now).1.dropLast.all
        fun a => !a.isPromote) = true) ∧
    (dry = true →
      (((backup root sp dp sf sh gz ig dry ll v old ex isd now).1.all
        fun a => !a.isPromote) = true)) ∧
    (exceptOk (backup root sp dp sf sh gz ig dry ll v old ex isd now).2 = false →
      (((backup root sp dp sf sh gz ig dry ll v old ex isd now).1.all
        fun a => !a.isPromote) = true)) := by
  unfold backup
  by_cases hll : ll ≠ 0
  · rw [if_pos hll]
    have h1 : (((if ¬ (ex (dp ++ "/_bkp_meta_") ∧ isd (dp ++ "/_bkp_meta_")) then
        [FsAction.makedirs (dp ++ "/_bkp_meta_")] else []) ++
        [FsAction.createLogFile
          (dp ++ "/_bkp_meta_/" ++ sf ++ ".filetree.bkp" ++ now ++ ".log")]).all
        fun a => !a.isPromote) = true := by
      simp only [List.all_append, Bool.and_eq_true]
      exact ⟨by split <;> rfl, rfl⟩
    rcases v with b | n | v0
    · exact backup_core_promote root sp dp sf sh gz ig dry (.vtup (.vbool b)) old ex isd now _ h1
    · exact backup_core_promote root sp dp sf sh gz ig dry (.vtup (.vint n)) old ex isd now _ h1
    · exact ⟨rfl, fun _ => rfl, fun _ => rfl⟩
  · rw [if_neg hll]
    exact backup_core_promote root sp dp sf sh gz ig dry v old ex isd now [] rfl

theorem promote_only_after_success_witness :
    ((backup demoRoot "src/data" "dst" "data" true demoGztar demoIgnore true 10 (.vint 4)
      FileTree.nil (fun _ => false) (fun _ => false) "T1").1.all
        fun a => !a.isPromote) = true :=
  (promote_only_after_success demoRoot "src/data" "dst" "data" true demoGztar demoIgnore
    true 10 (.vint 4) FileTree.nil (fun _ => false) (fun _ => false) "T1").2.1 rfl

/-- C4: a new snapshot entry whose record is missing one of the six required
keys makes the diff/transfer pass abort with an exception (ValueError)
rather than being silently processed or skipped.  Stated under the fatal
verbosity gate, which every standard (nonnegative integer) verbosity
passes; the gate itself is the subject of C10. -/
theorem missing_required_key_aborts (src dst fname : String) (meta : FileMeta)
    (spn : Bool) (sub rest old : FileTree) (sh dry : Bool) (v : Verbose)
    (ex isd : String → Bool)
    (hbad : requiredKeys meta = false)
    (hfatal : is_verbose v (.rstr "fatal") = true) :
    bkpList src dst (.cons fname meta spn sub rest) old sh dry v ex isd
      = ([], .error .valueError) :=
  bkpList_bad_fatal src dst fname meta spn sub rest old sh dry v ex isd hbad hfatal

theorem missing_required_key_aborts_witness :
    bkpList "s" "d" (.cons "a" badMeta false .nil .nil) .nil true false (.vint 4)
      (fun _ => false) (fun _ => false) = ([], .error .valueError) :=
  missing_required_key_aborts "s" "d" "a" badMeta false .nil .nil .nil true false (.vint 4)
    (fun _ => false) (fun _ => false) rfl (by decide)

/-- C5 (amended): a dry run performs no copy, no gzip output, no archive
creation, no destination-directory creation, no manifest write and no
manifest promotion; the only filesystem mutations it may perform are the
logging preamble's, namely creating the _bkp_meta_ directory when absent
and creating the log file (done regardless of dry_run when auto-logging is
enabled). -/
theorem dry_run_actions_only_logging (root : FSRoot) (sp dp sf : String) (sh : Bool)
    (gz ig : List String) (ll : Int) (v : Verbose) (old : FileTree)
    (ex isd : String → Bool) (now : String) :
    ∀ a ∈ (backup root sp dp sf sh gz ig true ll v old ex isd now).1,
      a = FsAction.makedirs (dp ++ "/_bkp_meta_") ∨
      a = FsAction.createLogFile
            (dp ++ "/_bkp_meta_/" ++ sf ++ ".filetree.bkp" ++ now ++ ".log") := by
  intro a ha
  unfold backup at ha
  by_cases hll : ll ≠ 0
  · rw [if_pos hll] at ha
    rcases v with b | n | v0
    · rw [backup_core_dry] at ha
      rcases List.mem_append.mp ha with h | h
      · by_cases hex : ex (dp ++ "/_bkp_meta_") ∧ isd (dp ++ "/_bkp_meta_")
        · rw [if_neg (not_not_intro hex)] at h
          simp at h
        · rw [if_pos hex] at h
          left
          simpa using h
      · right
        simpa using h
    · rw [backup_core_dry] at ha
      rcases List.mem_append.mp ha with h | h
      · by_cases hex : ex (dp ++ "/_bkp_meta_") ∧ isd (dp ++ "/_bkp_meta_")
        · rw [if_neg (not_not_intro hex)] at h
          simp at h
        · rw [if_pos hex] at h
          left
          simpa using h
      · right
        simpa using h
    · simp at ha
  · rw [if_neg hll] at ha
    rw [backup_core_dry] at ha
    simp at ha

theorem dry_run_actions_only_logging_witness :
    FsAction.makedirs ("dst" ++ "/_bkp_meta_") = FsAction.makedirs ("dst" ++ "/_bkp_meta_") ∨
    FsAction.makedirs ("dst" ++ "/_bkp_meta_") =
      FsAction.createLogFile
        ("dst" ++ "/_bkp_meta_/" ++ "data" ++ ".filetree.bkp" ++ "T1" ++ ".log") :=
  dry_run_actions_only_logging demoRoot "src/data" "dst" "data" true demoGztar demoIgnore
    10 (.vint 4) FileTree.nil (fun _ => false) (fun _ => false) "T1"
    (FsAction.makedirs ("dst" ++ "/_bkp_meta_")) (by decide)

/-- C5 (counterexample): with auto-logging enabled (the default log level)
and the metadata directory absent, a dry run does mutate the filesystem: it
creates the _bkp_meta_ directory and creates the log file. -/
theorem dry_run_still_creates_meta_dir :
    (backup demoRoot "src/data" "dst" "data" true demoGztar demoIgnore true 10 (.vint 4)
      FileTree.nil (fun _ => false) (fun _ => false) "T1").1
      = [FsAction.makedirs "dst/_bkp_meta_",
         FsAction.createLogFile "dst/_bkp_meta_/data.filetree.bkpT1.log"] := rfl

/-- C6 (amended): for a directory entry with verdict Archive, an existing
destination archive of the same computed name is only warned about; the
executor does not skip and calls make_archive anyway, overwriting it.  The
archive action is emitted for every changed archive-list entry regardless
of the destination-existence oracle. -/
theorem archive_overwrites_existing (src dst fname : String) (meta : FileMeta)
    (spn : Bool) (sub old : FileTree) (sh : Bool) (v : Verbose)
    (ex isd : String → Bool)
    (hreq : requiredKeys meta = true)
    (htype : meta.type = some "dir")
    (hgz : meta.compr_mth = some "gztar")
    (hold : old.find? fname = none) :
    bkpList src dst (.cons fname meta spn sub .nil) old sh false v ex isd
      = ([.makeArchive
            (_get_bkp_filename (dst ++ "/" ++ fname) (meta.mtime_utc.getD "") none v)
            src fname], .ok ⟨0, 0, 1, 0⟩) :=
  bkpList_archive src dst fname meta spn sub old sh v ex isd hreq htype hgz hold

theorem archive_overwrites_existing_witness :
    bkpList "src/data" "dst/data"
      (.cons ".git" (gztarMeta 4096 7 demoGitChildren) true .nil .nil)
      .nil true false (.vint 4) (fun _ => true) (fun _ => true)
      = ([.makeArchive "dst/data/.git.bkp19700101000000000007._bkp_" "src/data" ".git"],
         .ok ⟨0, 0, 1, 0⟩) :=
  archive_overwrites_existing "src/data" "dst/data" ".git"
    (gztarMeta 4096 7 demoGitChildren) true .nil .nil true (.vint 4)
    (fun _ => true) (fun _ => true) rfl rfl rfl rfl

/-- C6 (counterexample): with an oracle answering that every destination
path exists, so in particular the computed .tar.gz archive already exists,
the archive is still created rather than skipped. -/
theorem existing_archive_still_created :
    ((fun _ => true : String → Bool)
        "dst/data/.git.bkp19700101000000000007._bkp_.tar.gz" = true) ∧
    (bkpList "src/data" "dst/data"
      (.cons ".git" (gztarMeta 4096 7 demoGitChildren) true .nil .nil)
      .nil true false (.vint 4) (fun _ => true) (fun _ => true)).1
      = [.makeArchive "dst/data/.git.bkp19700101000000000007._bkp_" "src/data" ".git"] :=
  ⟨rfl, rfl⟩

/-- C7 (amended): for a file entry copied with gzip compression the
destination filename is the source name followed by .bkp, the rendered
modification time, and ._bkp_.gz; the rendered time is a 20-digit string
(the 14 digits down to the second plus 6 microsecond digits), not a
14-digit one. -/
theorem bkp_filename_gzip_shape :
    (∀ (dst : String) (px6 : Int) (v : Verbose),
       _get_bkp_filename dst (_get_timestamp_str_from_px6 px6) (some "gzip") v
         = dst ++ ".bkp" ++ _get_timestamp_str_from_px6 px6 ++ "._bkp_.gz") ∧
    (∀ px6 : Int, (_get_timestamp_str_from_px6 px6).length = 20 ∧
       ((_get_timestamp_str_from_px6 px6).data.all Char.isDigit) = true) := by
  constructor
  · intro dst px6 v
    unfold _get_bkp_filename
    rw [if_neg (by decide), if_pos rfl, String.append_assoc]
    rfl
  · intro px6
    refine ⟨rfl, ?_⟩
    unfold _get_timestamp_str_from_px6
    simp [pad4, pad2, pad6, digitCharOf_isDigit]

/-- C7 (counterexample): the gzip backup filename cannot be decomposed with
a 14-digit timestamp segment; at a concrete mtime the rendered segment has
20 digits. -/
theorem bkp_filename_not_14_digits :
    ¬ ∃ ts : String, ts.length = 14 ∧
      _get_bkp_filename "dst/a.txt" (_get_timestamp_str_from_px6 1700000000123456)
        (some "gzip") (.vint 4) = "dst/a.txt" ++ ".bkp" ++ ts ++ "._bkp_.gz" := by
  rintro ⟨ts, h14, heq⟩
  have h := congrArg String.length heq
  rw [show (_get_bkp_filename "dst/a.txt" (_get_timestamp_str_from_px6 1700000000123456)
      (some "gzip") (.vint 4)).length = 42 from rfl] at h
  rw [String.length_append, String.length_append, String.length_append, h14] at h
  rw [show ("dst/a.txt" : String).length = 9 from rfl,
      show (".bkp" : String).length = 4 from rfl,
      show ("._bkp_.gz" : String).length = 9 from rfl] at h
  omega

/-- C8 (amended): in every snapshot the scanner produces, an entry's no_f
equals the number of snapshot entries in its subtree, itself included: a
File/SymLink leaf counts 1, a recursed directory adds 1 for itself to its
children's total, and an archive-list directory stays at 1.  It is not the
number of File/SymLink leaves alone. -/
theorem no_f_counts_snapshot_entries :
    (∀ t gz ig, noFMatches (scanChildren t gz ig) = true) ∧
    (∀ root name gz ig,
      ((get_filetree root name gz ig).all fun e =>
        entryNoFOk e.1 e.2.1 e.2.2 && noFMatches e.2.2) = true) ∧
    (∀ il sz mt, (leafMeta il sz mt).no_f = some 1) :=
  ⟨fun t gz ig => scanChildren_noFMatches t gz ig,
   fun root name gz ig => get_filetree_noFOk root name gz ig,
   fun _ _ _ => rfl⟩

/-- C8 (counterexample): scanning a directory holding one file yields a
directory entry with no_f 2 although its subtree has a single File leaf, so
no_f does not equal the leaf count. -/
theorem no_f_differs_from_leaf_count :
    noFEqualsLeafCount (scanChildren c8fs [] []) = false ∧
    (dirMeta 4096 0 (.cons "f" (leafMeta false 10 0) false .nil .nil)).no_f = some 2 ∧
    entryLeafCount (dirMeta 4096 0 (.cons "f" (leafMeta false 10 0) false .nil .nil)) true
      (.cons "f" (leafMeta false 10 0) false .nil .nil) = 1 :=
  ⟨rfl, rfl, rfl⟩

/-- C9 (amended): the NotImplementedError for a non-shallow comparison
request is raised exactly while diffing an entry that has a nonempty old
manifest record, under the fatal verbosity gate; with no old record (for
example on a first run) the request is silently ignored and entries are
processed normally. -/
theorem non_shallow_raises_only_with_old (src dst fname : String) (meta om : FileMeta)
    (spn osp : Bool) (sub osub old rest : FileTree) (dry : Bool) (v : Verbose)
    (ex isd : String → Bool)
    (hreq : requiredKeys meta = true)
    (hfind : old.find? fname = some (om, osp, osub))
    (htruthy : entryTruthy om osp = true)
    (hfatal : is_verbose v (.rstr "fatal") = true) :
    bkpList src dst (.cons fname meta spn sub rest) old false dry v ex isd
      = ([], .error .notImplementedError) :=
  bkpList_nie src dst fname meta om spn osp sub osub old rest dry v ex isd
    hreq hfind htruthy hfatal

theorem non_shallow_raises_only_with_old_witness :
    bkpList "s" "d" (.cons "a" (leafMeta false 5 0) false .nil .nil)
      (.cons "a" (leafMeta false 6 1) false .nil .nil) false false (.vint 4)
      (fun _ => false) (fun _ => false) = ([], .error .notImplementedError) :=
  non_shallow_raises_only_with_old "s" "d" "a" (leafMeta false 5 0) (leafMeta false 6 1)
    false false .nil .nil (.cons "a" (leafMeta false 6 1) false .nil .nil) .nil false
    (.vint 4) (fun _ => false) (fun _ => false) rfl rfl rfl (by decide)

/-- C9 (counterexample): with filecmp_shallow false but no old manifest
record for the entry, no NotImplementedError is raised; the entry is copied
normally, silently ignoring the full-comparison request. -/
theorem non_shallow_ignored_without_old :
    bkpList "s" "d" (.cons "a" (leafMeta false 5 0) false .nil .nil) .nil false false
      (.vint 4) (fun _ => false) (fun _ => false)
      = ([.gzipFile "s/a" "d/a.bkp19700101000000000000._bkp_.gz"], .ok ⟨0, 1, 0, 0⟩) := rfl

/-- C10 (amended): the fatal exceptions of the diff pass (the ValueError
for a schema-violating new entry and the NotImplementedError for a
non-shallow comparison) are raised exactly when the verbosity passes the
fatal level test, which for an integer verbosity is being at least 0 (not
at least 1) and for a boolean is True; with a negative integer or False the
exception is suppressed and the schema-violating entry is counted as
skipped through its no_f key. -/
theorem fatal_gate_is_nonnegative :
    (∀ (n : Int) (src dst fname : String) (meta : FileMeta) (spn : Bool)
        (sub old : FileTree) (sh dry : Bool) (ex isd : String → Bool) (k : Nat),
      requiredKeys meta = false → meta.no_f = some k →
      bkpList src dst (.cons fname meta spn sub .nil) old sh dry (.vint n) ex isd
        = if 0 ≤ n then ([], .error .valueError) else ([], .ok ⟨k, 0, 0, 0⟩)) ∧
    (∀ (b : Bool) (src dst fname : String) (meta : FileMeta) (spn : Bool)
        (sub old : FileTree) (sh dry : Bool) (ex isd : String → Bool) (k : Nat),
      requiredKeys meta = false → meta.no_f = some k →
      bkpList src dst (.cons fname meta spn sub .nil) old sh dry (.vbool b) ex isd
        = cond b ([], .error .valueError) ([], .ok ⟨k, 0, 0, 0⟩)) ∧
    (∀ (n : Int) (src dst fname : String) (meta om : FileMeta) (spn osp : Bool)
        (sub osub old : FileTree) (dry : Bool) (ex isd : String → Bool) (k : Nat),
      requiredKeys meta = true → meta.no_f = some k →
      old.find? fname = some (om, osp, osub) →
      om.type = meta.type → om.size = meta.size → om.mtime_px6 = meta.mtime_px6 →
      bkpList src dst (.cons fname meta spn sub .nil) old false dry (.vint n) ex isd
        = if 0 ≤ n then ([], .error .notImplementedError) else ([], .ok ⟨k, 0, 0, 0⟩)) := by
  refine ⟨?_, ?_, ?_⟩
  · intro n src dst fname meta spn sub old sh dry ex isd k hbad hnf
    by_cases h0 : 0 ≤ n
    · rw [if_pos h0]
      exact bkpList_bad_fatal src dst fname meta spn sub .nil old sh dry (.vint n) ex isd hbad
        (by rw [is_verbose_vint_fatal]; exact decide_eq_true h0)
    · rw [if_neg h0]
      exact bkpList_bad_skip src dst fname meta spn sub old sh dry (.vint n) ex isd k hbad
        (by rw [is_verbose_vint_fatal]; exact decide_eq_false h0)
        (by rw [is_verbose_vint_info]; exact decide_eq_false (by omega))
        hnf
  · intro b src dst fname meta spn sub old sh dry ex isd k hbad hnf
    rcases b with _ | _
    · exact bkpList_bad_skip src dst fname meta spn sub old sh dry (.vbool false) ex isd k
        hbad rfl rfl hnf
    · exact bkpList_bad_fatal src dst fname meta spn sub .nil old sh dry (.vbool true) ex isd
        hbad rfl
  · intro n src dst fname meta om spn osp sub osub old dry ex isd k hreq hnf hfind ht hs hm
    by_cases h0 : 0 ≤ n
    · rw [if_pos h0]
      exact bkpList_nie src dst fname meta om spn osp sub osub old .nil dry (.vint n) ex isd
        hreq hfind (truthy_of_type_eq hreq ht)
        (by rw [is_verbose_vint_fatal]; exact decide_eq_true h0)
    · rw [if_neg h0]
      refine bkpList_match_skip src dst fname meta om spn osp sub osub old false dry (.vint n)
        ex isd k hfind hreq hnf ht hs hm ?_
      rintro ⟨_, hf⟩
      rw [is_verbose_vint_fatal] at hf
      exact h0 (of_decide_eq_true hf)

theorem fatal_gate_is_nonnegative_witness :
    bkpList "s" "d" (.cons "a" badMeta false .nil .nil) .nil true false (.vint 5)
      (fun _ => false) (fun _ => false) = ([], .error .valueError) ∧
    bkpList "s2" "d2" (.cons "b" badMeta false .nil .nil) .nil true false (.vbool false)
      (fun _ => false) (fun _ => false) = ([], .ok ⟨1, 0, 0, 0⟩) := by
  constructor
  · have h := fatal_gate_is_nonnegative.1 5 "s" "d" "a" badMeta false .nil .nil true false
      (fun _ => false) (fun _ => false) 1 rfl rfl
    rw [if_pos (by decide)] at h
    exact h
  · exact fatal_gate_is_nonnegative.2.1 false "s2" "d2" "b" badMeta false .nil .nil true false
      (fun _ => false) (fun _ => false) 1 rfl rfl

/-- C10 (counterexample): at verbosity 0 the schema-violation exception is
raised, not suppressed: the fatal test for integers is at least 0, not at
least 1 as the claim states. -/
theorem fatal_raised_at_verbosity_zero :
    bkpList "s" "d" (.cons "a" badMeta false .nil .nil) .nil true false (.vint 0)
      (fun _ => false) (fun _ => false) = ([], .error .valueError) := rfl

end Autobkp
